import Mathlib
namespace Preserver
/-!
Verification of the Einstein primary-source preserver
(`einstein_primary_preserver.py`) and the ADS discovery helper
(`einstein_missing_from_ads.py`).

The Python code is shallowly embedded: pure string manipulation is
translated directly onto `List Char` / `String`; every network call,
file read, PDF parse and random draw is supplied by an explicit
environment (`Env`) of oracles, and the per-record fetch loop is
translated as a fuel-indexed recursion that also emits a trace of
observable events (HTTP GETs, sleeps, file writes, quarantine moves).

Character-level caveats of the embedding, recorded once here:
`Char.toLower` models Python's `str.lower` (exact on ASCII; identity on
the non-ASCII characters appearing in the constants of this program),
and whitespace trimming models Python's `str.strip` over the common
whitespace characters recognised by `Char.isWhitespace`.
-/
/-- Lowercase a character list, modelling Python `str.lower`. -/
def lowerChars (l : List Char) : List Char := l.map Char.toLower
/-- Lowercase a string, modelling Python `str.lower`. -/
def lowerStr (s : String) : String := String.mk (lowerChars s.data)
/-- Drop whitespace from both ends, modelling Python `str.strip()`. -/
def trimChars (l : List Char) : List Char :=
  ((l.dropWhile Char.isWhitespace).reverse.dropWhile Char.isWhitespace).reverse
/-- String-level `strip()`. -/
def strTrim (s : String) : String := String.mk (trimChars s.data)
/-- Decidable contiguous-substring test: Python's `pat in l`. -/
def isSubstring (pat : List Char) : List Char → Bool
  | [] => pat.isEmpty
  | c :: rest => pat.isPrefixOf (c :: rest) || isSubstring pat rest
/-- Python `sub in s` on strings. -/
def strContains (s sub : String) : Bool := isSubstring sub.data s.data
/-- Python `s.endswith(suf)` on strings. -/
def strEndsWith (s suf : String) : Bool := suf.data.isSuffixOf s.data
/-! ### urlparse (netloc extraction)

Model of the part of Python's `urllib.parse.urlparse` that the program
uses: the `netloc` attribute.  CPython removes the bytes
tab/CR/LF, strips an initial `scheme:` when the prefix is a valid
scheme, then, when the remainder starts with `//`, takes the netloc up
to the first `/`, `?` or `#`; a netloc containing `[` without `]` (or
vice versa) raises `ValueError` — modelled as `none`. -/
/-- Characters CPython deletes from a URL before parsing. -/
def removeTabCrLf (l : List Char) : List Char :=
  l.filter (fun c => !(c = '\t' || c = '\r' || c = '\n'))
/-- Valid characters of a URL scheme after the leading letter. -/
def schemeChar (c : Char) : Bool :=
  c.isAlphanum || c = '+' || c = '-' || c = '.'
/-- Strip a leading `scheme:` from a URL when present and well formed. -/
def splitScheme (l : List Char) : List Char :=
  let pre := l.takeWhile (fun c => c ≠ ':')
  if pre.length < l.length ∧ pre ≠ [] ∧
      (pre.headD ' ').isAlpha ∧ pre.all schemeChar then
    l.drop (pre.length + 1)
  else l
/-- Extract the netloc from the remainder of the URL; `none` models the
`ValueError` CPython raises on a mismatched IPv6 bracket. -/
def netlocOf : List Char → Option (List Char)
  | '/' :: '/' :: rest =>
    let n := rest.takeWhile (fun c => c ≠ '/' ∧ c ≠ '?' ∧ c ≠ '#')
    if (n.contains '[' != n.contains ']') then none else some n
  | _ => some []
/-- The `urlparse(url).netloc` computation; `none` models a raised
`ValueError` ("host cannot be parsed"). -/
def urlparse_netloc (url : String) : Option (List Char) :=
  netlocOf (splitScheme (removeTabCrLf url.data))
/-- The fixed primary-host whitelist `PRIMARY_WHITELIST`. -/
def PRIMARY_WHITELIST : List String := [
  "doi.org",
  "onlinelibrary.wiley.com",
  "ui.adsabs.harvard.edu",
  "adsabs.harvard.edu",
  "archive.org",
  "echo.mpiwg-berlin.mpg.de",
  "mpiwg-berlin.mpg.de",
  "digi.ub.uni-heidelberg.de",
  "heidicon.ub.uni-heidelberg.de",
  "retro.seals.ch",
  "e-periodica.ch",
  "e-rara.ch",
  "journals.aps.org",
  "projecteuclid.org",
  "jstor.org",
  "gallica.bnf.fr",
  "nobelprize.org",
  "nature.com",
  "scientificamerican.com",
  "link.springer.com",
  "springer.com",
  "gutenberg.org"]
/-- The venue keyword list `VENUE_KEYWORDS`. -/
def VENUE_KEYWORDS : List String := [
  "Annalen der Physik",
  "Sitzungsberichte der Preußischen Akademie",
  "Physikalische Zeitschrift",
  "Zeitschrift für Physik",
  "Physical Review",
  "Reviews of Modern Physics",
  "Journal of the Franklin Institute",
  "Annals of Mathematics",
  "Canadian Journal of Mathematics",
  "Nature",
  "Science",
  "Comptes Rendus"]
/-- One whitelist test: `netloc.endswith(host) or host in netloc`. -/
def hostEntryMatch (h : String) (netloc : List Char) : Bool :=
  h.data.isSuffixOf netloc || isSubstring h.data netloc
/-- Test `any(... for host in hosts)` over a lowercased netloc. -/
def hostMatch (hosts : List String) (netloc : List Char) : Bool :=
  hosts.any (fun h => hostEntryMatch h netloc)
/-- Function `is_primary_url` from `einstein_primary_preserver.py`: lowercase the
parsed netloc and test it against the whitelist by suffix or substring;
a parse failure is caught and yields `False`. -/
def is_primary_url (url : String) : Bool :=
  match urlparse_netloc url with
  | none => false
  | some n => hostMatch PRIMARY_WHITELIST (lowerChars n)
/-! ### Small helpers of the preserver -/
/-- Function `guess_pdf`: does the URL look like a PDF link? -/
def guess_pdf (url : String) : Bool :=
  let p := lowerChars url.data
  ".pdf".data.isSuffixOf p || isSubstring "pdf".data p ||
    isSubstring "format=pdf".data p
/-- Python regex class `\w` (word character), ASCII model. -/
def isWordChar (c : Char) : Bool := c.isAlphanum || c = '_'
/-- Replace each maximal whitespace run by a single `_`
(`re.sub(r"\s+", "_", s)`); the flag remembers whether the previous
character was part of a whitespace run. -/
def collapseWsAux : Bool → List Char → List Char
  | _, [] => []
  | prevWs, c :: rest =>
    if c.isWhitespace then
      (if prevWs then [] else ['_']) ++ collapseWsAux true rest
    else c :: collapseWsAux false rest
/-- Function `safe_slug`: drop non word/space/dash/dot characters, strip, collapse
whitespace to underscores, truncate to 140, defaulting to "untitled". -/
def safe_slug (s : String) : String :=
  let kept := s.data.filter (fun c =>
    isWordChar c || c.isWhitespace || c = '-' || c = '.')
  let collapsed := collapseWsAux false (trimChars kept)
  let truncated := collapsed.take 140
  if truncated.isEmpty then "untitled" else String.mk truncated
/-- Python `str.strip("_")`. -/
def stripUnderscores (l : List Char) : List Char :=
  ((l.dropWhile (fun c => c = '_')).reverse.dropWhile (fun c => c = '_')).reverse
/-- The output base name `f"{year + '_' if year else ''}{safe_slug(title)}"`
stripped of underscores, defaulting to "einstein_pub". -/
def mkBase (title year : String) : String :=
  let b := (if year ≠ "" then year ++ "_" else "") ++ safe_slug title
  let st := stripUnderscores b.data
  if st.isEmpty then "einstein_pub" else String.mk st
/-- Characters after the last slash: `os.path.basename`. -/
def basenameChars (l : List Char) : List Char :=
  l.foldl (fun acc c => if c = '/' then [] else acc ++ [c]) []
/-- Model of `os.path.basename` on strings. -/
def basename (p : String) : String := String.mk (basenameChars p.data)
/-! ### Validator (`validate_pdf`)

The PDF reader and text extractor are external engines; their output for
one file is the pair `PdfInfo` (page count, extracted prefix text), and
a file they fail to parse is `none` — that is the `except` branch. -/
/-- Parse result of `PdfReader` + `pdf_extract_text` on one file. -/
structure PdfInfo where
  pages : Nat
  text : String
deriving DecidableEq
/-- The dictionary `validate_pdf` returns. -/
structure Checks where
  has_einstein : Bool
  has_venue : Bool
  page_sane : Bool
  valid_primary : Bool
  text_len : Nat
  pages : Nat
  host : String
deriving DecidableEq
/-- The all-false dictionary of the `except` branch. -/
def allFalseChecks : Checks :=
  { has_einstein := false, has_venue := false, page_sane := false,
    valid_primary := false, text_len := 0, pages := 0, host := "" }
/-- Computation `urlparse(source_url).netloc.lower() if source_url else ""`; `none`
is the `ValueError` on an unparseable netloc, which the surrounding
`try` of `validate_pdf` turns into the all-false result. -/
def hostOfSource : Option String → Option (List Char)
  | none => some []
  | some u => if u = "" then some [] else (urlparse_netloc u).map lowerChars
/-- Function `validate_pdf` from `einstein_primary_preserver.py`. -/
def validate_pdf (pdf : Option PdfInfo) (source_url : Option String)
    (accept_scan_only : Bool) (trusted_hosts : List String) (book : Bool) :
    Checks :=
  match pdf with
  | none => allFalseChecks
  | some info =>
    let textLow := lowerChars info.text.data
    let textLen := textLow.length
    let hasE := isSubstring "einstein".data textLow
    let hasV := VENUE_KEYWORDS.any (fun v => isSubstring (lowerChars v.data) textLow)
    let pageSane := (decide (1 ≤ info.pages) && decide (info.pages ≤ 200)) ||
      (book && decide (info.pages > 50))
    let valid0 := hasE && pageSane
    match hostOfSource source_url with
    | none => allFalseChecks
    | some host =>
      let isTrusted := hostMatch trusted_hosts host
      let valid := if accept_scan_only && isTrusted &&
          (decide (textLen < 100) &&
            (decide (2 ≤ info.pages) && decide (info.pages ≤ 80))) then
          true
        else valid0
      { has_einstein := hasE, has_venue := hasV, page_sane := pageSane,
        valid_primary := valid, text_len := textLen, pages := info.pages,
        host := String.mk host }
/-! ### Resolution oracles and `resolve_candidates` -/
/-- One OA location object of an Unpaywall response. -/
structure OALoc where
  url_for_pdf : Option String
deriving DecidableEq
/-- The fields of an Unpaywall JSON response the program reads. -/
structure UnpaywallData where
  best_oa_location : Option OALoc
  oa_locations : Option (List OALoc)
deriving DecidableEq
/-- Computation `loc.get("url_for_pdf") or ""`. -/
def pdfOfLoc (L : OALoc) : String := L.url_for_pdf.getD ""
/-- Outcome of one `sess.get` call: either a raised exception or a
response (status code, Content-Type header, final URL after redirects). -/
inductive NetResult
  | exn (msg : String)
  | ok (status : Nat) (ctype : String) (finalUrl : String)
deriving DecidableEq
/-- The external world of one run: HTTP responses per URL and attempt,
the DOI redirect resolver, the Unpaywall endpoint, environment
variables, the validator's verdict per downloaded file (keyed by the
final URL the file came from, and the `book` flag), the browser and
HTML-renderer capabilities, the SHA-256 of the file at a final URL, and
the random backoff jitter. -/
structure Env where
  net : String → Nat → NetResult
  clientGet : String → Option (Nat × String)
  unpaywallEmail : String
  unpaywallResp : String → Option (Nat × UnpaywallData)
  adsToken : String
  checks : String → Bool → Checks
  browserOk : String → Bool
  renderOk : String → Bool
  hashOf : String → String
  jitter : String → Nat → ℚ
/-- Function `resolve_doi`: follow the `https://doi.org/<doi>` redirect; status
below 400 yields the final URL, anything else (or a raised exception,
`clientGet = none`) yields `None`. -/
def resolve_doi (env : Env) (doi : String) : Option String :=
  if doi = "" then none
  else match env.clientGet ("https://doi.org/" ++ doi) with
    | none => none
    | some (st, fu) => if st < 400 then some fu else none
/-- The `for L in (data.get("oa_locations") or [])` loop of
`try_unpaywall`: first location whose PDF URL is non-empty and primary. -/
def firstPrimaryLoc : List OALoc → Option String
  | [] => none
  | L :: rest =>
    let p := pdfOfLoc L
    if p ≠ "" ∧ is_primary_url p = true then some p else firstPrimaryLoc rest
/-- Function `try_unpaywall` from `einstein_primary_preserver.py`. -/
def try_unpaywall (env : Env) (doi : String) : Option String :=
  if strTrim env.unpaywallEmail = "" ∨ doi = "" then none
  else match env.unpaywallResp doi with
    | none => none
    | some (st, data) =>
      if 400 ≤ st then none
      else
        let best := pdfOfLoc (data.best_oa_location.getD { url_for_pdf := none })
        if best ≠ "" ∧ is_primary_url best = true then some best
        else firstPrimaryLoc (data.oa_locations.getD [])
/-- Function `try_ads_pdf`: synthesize the ADS link-gateway URL when a token and
a bibcode are present. -/
def try_ads_pdf (env : Env) (bibcode : String) : Option String :=
  if strTrim env.adsToken = "" ∨ bibcode = "" then none
  else some ("https://ui.adsabs.harvard.edu/link_gateway/" ++ bibcode ++ "/PUB_PDF")
/-- One bibliographic input record (a row of the biblio file). -/
structure Rec where
  title : String
  year : String
  doi : String
  bibcode : String
  url_hint : String
deriving DecidableEq
/-- Function `resolve_candidates` from `einstein_primary_preserver.py`: DOI
redirect, then Unpaywall, then the ADS gateway link, then the hint; the
list is filtered by `is_primary_url`, and when it is empty but a bibcode
exists, one legacy fallback URL is tried. -/
def resolve_candidates (env : Env) (rec : Rec) : String × String × List String :=
  let title := strTrim rec.title
  let year := strTrim rec.year
  let doi := strTrim rec.doi
  let bibcode := strTrim rec.bibcode
  let url_hint := strTrim rec.url_hint
  let c1 := if doi ≠ "" then
      (resolve_doi env doi).toList ++ (try_unpaywall env doi).toList
    else []
  let c2 := if bibcode ≠ "" then (try_ads_pdf env bibcode).toList else []
  let c3 := if url_hint ≠ "" then [url_hint] else []
  let cands := (c1 ++ c2 ++ c3).filter
    (fun u => decide (u ≠ "" ∧ is_primary_url u = true))
  let cands2 := if cands = [] ∧ bibcode ≠ "" then
      (let u := "http://adsabs.harvard.edu/pdf/" ++ bibcode
       if is_primary_url u then [u] else [])
    else cands
  (title, year, cands2)
/-! ### Fetch loop (`fetch_one`) -/
/-- The per-record ledger dictionary built by `fetch_one`.  The initial
dictionary has no `valid_primary` key; merging a `Checks` dictionary
adds it, hence `valid_primary : Option Bool`. -/
structure Status where
  title : String
  year : String
  chosen_url : Option String
  saved_as : Option String
  sha256 : Option String
  validated : Bool
  has_einstein : Bool
  has_venue : Bool
  page_sane : Bool
  note : String
  text_len : Nat
  pages : Nat
  host : String
  valid_primary : Option Bool
deriving DecidableEq
/-- The dictionary `fetch_one` starts from. -/
def initStatus (title year : String) : Status :=
  { title := title, year := year, chosen_url := none, saved_as := none,
    sha256 := none, validated := false, has_einstein := false,
    has_venue := false, page_sane := false, note := "", text_len := 0,
    pages := 0, host := "", valid_primary := none }
/-- Whether the run's summary counts the entry as accepted:
`r.get("valid_primary")` is truthy. -/
def acceptedOf (s : Status) : Bool := s.valid_primary.getD false
/-- Merge `status.update(**checks)`. -/
def applyChecks (s : Status) (c : Checks) : Status :=
  { s with has_einstein := c.has_einstein, has_venue := c.has_venue,
           page_sane := c.page_sane, valid_primary := some c.valid_primary,
           text_len := c.text_len, pages := c.pages, host := c.host }
/-- Observable side effects of the fetch loop: an HTTP GET of a URL at a
given attempt index, a sleep of a duration in seconds, a file write, and
a move into quarantine. -/
inductive Event
  | get (url : String) (attempt : Nat)
  | sleep (d : ℚ)
  | write (path : String)
  | qmove (src dst : String)
deriving DecidableEq
/-- The command-line options the fetch loop reads.  `accept_scan_only`
and the trusted-host set only influence the validator, which the loop
consults through the `Env.checks` oracle, so they live there. -/
structure Args where
  out : String
  retries : Nat
  allow_licensed : Bool
  use_browser : Bool
  have_playwright : Bool
/-- The retryable HTTP status codes. -/
def RETRYABLE : List Nat := [429, 403, 500, 502, 503, 504]
/-- Duration slept by `backoff_sleep(attempt)`:
`min(60, 2 ** attempt) + random.uniform(0, 1.0)`. -/
def backoff_sleep (env : Env) (url : String) (attempt : Nat) : ℚ :=
  ((min 60 (2 ^ attempt) : ℕ) : ℚ) + env.jitter url attempt
/-- Path a rejected file is moved to:
`os.path.join(quarantine_dir, os.path.basename(out_pdf))`. -/
def quarantinePath (qDir outPdf : String) : String :=
  qDir ++ "/" ++ basename outPdf
/-- Result of the body of one `for attempt in range(...)` iteration:
`exit` is a `return` (`.done`) or `break` (`.next`), `retry` is a
`continue`. -/
inductive AttemptOut
  | done (s : Status)
  | next (s : Status)
deriving DecidableEq
/-- See `AttemptOut`. -/
inductive StepRes
  | exit (r : AttemptOut) (evs : List Event)
  | retry (s : Status) (evs : List Event)
deriving DecidableEq
/-- Tail of the HTML branch: the Gutenberg book render.  Note that on a
successful render the hash and checks are recorded and the function
returns without consulting `valid_primary`. -/
def gutenbergTail (env : Env) (outPdf finalUrl : String) (s : Status)
    (evs : List Event) : StepRes :=
  if strContains finalUrl "gutenberg.org" then
    if env.renderOk finalUrl then
      .exit (.done (applyChecks
          { s with saved_as := some outPdf,
                   sha256 := some (env.hashOf finalUrl) }
          (env.checks finalUrl true)))
        (evs ++ [Event.write outPdf])
    else .exit (.next { s with note := "html_no_primary_pdf" }) evs
  else .exit (.next { s with note := "html_no_primary_pdf" }) evs
/-- The HTML/text branch of the fetch loop: optional browser-assisted
download (accepted only when validation passes), then the Gutenberg
book path, else the `html_no_primary_pdf` break. -/
def htmlStep (env : Env) (a : Args) (outPdf url : String) (attempt : Nat)
    (finalUrl : String) (s : Status) : StepRes :=
  let ge := Event.get url attempt
  if a.use_browser && a.have_playwright then
    if env.browserOk finalUrl then
      let c := env.checks finalUrl false
      if c.valid_primary then
        .exit (.done (applyChecks
            { s with saved_as := some outPdf,
                     sha256 := some (env.hashOf finalUrl) } c))
          [ge, Event.write outPdf]
      else gutenbergTail env outPdf finalUrl s [ge, Event.write outPdf]
    else gutenbergTail env outPdf finalUrl s [ge]
  else gutenbergTail env outPdf finalUrl s [ge]
/-- Body of one attempt of the `for attempt in range(args.retries)`
loop of `fetch_one`. -/
def attemptOnce (env : Env) (a : Args) (outPdf qDir url : String)
    (attempt : Nat) (s : Status) : StepRes :=
  match env.net url attempt with
  | .exn msg =>
    .retry { s with note := "error:" ++ msg }
      [Event.get url attempt, Event.sleep (backoff_sleep env url attempt)]
  | .ok st ctRaw finalUrl =>
    let ctype := lowerStr ctRaw
    if st ∈ RETRYABLE then
      .retry s [Event.get url attempt, Event.sleep (backoff_sleep env url attempt)]
    else if strContains ctype "pdf" || guess_pdf finalUrl then
      let c := env.checks finalUrl false
      if c.valid_primary then
        .exit (.done (applyChecks
            { s with saved_as := some outPdf,
                     sha256 := some (env.hashOf finalUrl) } c))
          [Event.get url attempt, Event.write outPdf]
      else
        .exit (.done
            { applyChecks { s with saved_as := some (quarantinePath qDir outPdf) } c
                with note := "quarantined_failed_validation" })
          [Event.get url attempt, Event.write outPdf,
           Event.qmove outPdf (quarantinePath qDir outPdf)]
    else if strContains ctype "html" || strContains ctype "text/" ||
        decide (ctype = "") then
      htmlStep env a outPdf url attempt finalUrl s
    else
      .exit (.next { s with note := "unsupported_ctype:" ++ ctype })
        [Event.get url attempt]
/-- The attempt loop over one URL, with `fuel` remaining iterations and
`attempt` the current index; running out of fuel is the `for` loop
ending, which falls through to the next candidate. -/
def runAttempts (env : Env) (a : Args) (outPdf qDir url : String) :
    Nat → Nat → Status → AttemptOut × List Event
  | 0, _, s => (.next s, [])
  | fuel + 1, attempt, s =>
    match attemptOnce env a outPdf qDir url attempt s with
    | .exit r evs => (r, evs)
    | .retry s' evs =>
      let rec2 := runAttempts env a outPdf qDir url fuel (attempt + 1) s'
      (rec2.1, evs ++ rec2.2)
/-- The licensed-host guard of the candidate loop:
`("jstor.org" in url or "springer" in url) and not args.allow_licensed`. -/
def licensedSkip (a : Args) (url : String) : Bool :=
  (strContains url "jstor.org" || strContains url "springer") && !a.allow_licensed
/-- The `for url in candidates` loop of `fetch_one`. -/
def fetch_loop (env : Env) (a : Args) (outPdf qDir : String) :
    List String → Status → Status × List Event
  | [], s => (s, [])
  | url :: rest, s =>
    if licensedSkip a url then fetch_loop env a outPdf qDir rest s
    else
      match runAttempts env a outPdf qDir url a.retries 0
          { s with chosen_url := some url } with
      | (.done out, evs) => (out, evs)
      | (.next s2, evs) =>
        let r := fetch_loop env a outPdf qDir rest s2
        (r.1, evs ++ r.2)
/-- Function `fetch_one` from `einstein_primary_preserver.py`: resolve, handle
the empty candidate list, then run the candidate loop.  The second
component is the trace of observable side effects. -/
def fetch_one (env : Env) (a : Args) (rec : Rec) : Status × List Event :=
  let r := resolve_candidates env rec
  if r.2.2 = [] then
    ({ initStatus r.1 r.2.1 with note := "no_primary_candidate" }, [])
  else
    fetch_loop env a (a.out ++ "/" ++ mkBase r.1 r.2.1 ++ ".pdf")
      (a.out ++ "/quarantine") r.2.2 (initStatus r.1 r.2.1)
/-- The exact event trace of an attempt budget spent entirely on
retryable responses for one URL. -/
def retryTrace (env : Env) (url : String) (n : Nat) : List Event :=
  (List.range n).flatMap
    (fun k => [Event.get url k, Event.sleep (backoff_sleep env url k)])
/-! ### Concrete environments and records used by the claim theorems -/
/-- Environment of the C2 counterexample: the one candidate serves
HTML, the Gutenberg render succeeds, and validation rejects the
rendered file. -/
def envC2 : Env :=
  { net := fun _ _ => .ok 200 "text/html" "https://www.gutenberg.org/ebooks/1",
    clientGet := fun _ => none,
    unpaywallEmail := "",
    unpaywallResp := fun _ => none,
    adsToken := "",
    checks := fun _ _ =>
      { has_einstein := false, has_venue := false, page_sane := true,
        valid_primary := false, text_len := 0, pages := 10,
        host := "www.gutenberg.org" },
    browserOk := fun _ => false,
    renderOk := fun _ => true,
    hashOf := fun _ => "cafebabe",
    jitter := fun _ _ => 0 }
/-- Args of the C2 counterexample. -/
def argsC2 : Args :=
  { out := "out", retries := 3, allow_licensed := false,
    use_browser := false, have_playwright := false }
/-- Record of the C2 counterexample: a Gutenberg hint. -/
def recC2 : Rec :=
  { title := "T", year := "1905", doi := "", bibcode := "",
    url_hint := "https://www.gutenberg.org/ebooks/1" }
/-- Second C2 environment, for the witness: a direct PDF that validates,
with no renderer available. -/
def envC2b : Env :=
  { net := fun _ _ => .ok 200 "application/pdf" "https://archive.org/f.pdf",
    clientGet := fun _ => none,
    unpaywallEmail := "",
    unpaywallResp := fun _ => none,
    adsToken := "",
    checks := fun _ _ =>
      { has_einstein := true, has_venue := true, page_sane := true,
        valid_primary := true, text_len := 800, pages := 13,
        host := "archive.org" },
    browserOk := fun _ => false,
    renderOk := fun _ => false,
    hashOf := fun _ => "beadfeed",
    jitter := fun _ _ => 0 }
/-- Record for the C2 witness. -/
def recC2b : Rec :=
  { title := "t", year := "", doi := "", bibcode := "",
    url_hint := "https://archive.org/f.pdf" }
/-- Environment of the C3 counterexample: the first candidate (the ADS
gateway link) downloads a PDF that fails validation; the second
candidate (the hint) would download a PDF that validates. -/
def envC3 : Env :=
  { net := fun url _ =>
      if url = "https://ui.adsabs.harvard.edu/link_gateway/1905AnP.891E/PUB_PDF"
      then .ok 200 "application/pdf" "https://articles.example.org/a.pdf"
      else .ok 200 "application/pdf" "https://archive.org/b.pdf",
    clientGet := fun _ => none,
    unpaywallEmail := "",
    unpaywallResp := fun _ => none,
    adsToken := "TOKEN",
    checks := fun f _ =>
      if f = "https://archive.org/b.pdf"
      then { has_einstein := true, has_venue := false, page_sane := true,
             valid_primary := true, text_len := 500, pages := 13,
             host := "archive.org" }
      else allFalseChecks,
    browserOk := fun _ => false,
    renderOk := fun _ => false,
    hashOf := fun _ => "deadbeef",
    jitter := fun _ _ => 0 }
/-- Args of the C3 counterexample. -/
def argsC3 : Args :=
  { out := "out", retries := 3, allow_licensed := false,
    use_browser := false, have_playwright := false }
/-- Record of the C3 counterexample: a bibcode and a hint, resolving to
two candidates. -/
def recC3 : Rec :=
  { title := "Zur Elektrodynamik", year := "1905", doi := "",
    bibcode := "1905AnP.891E", url_hint := "https://archive.org/b" }
/-- The same record without the bibcode: only the hint remains. -/
def recC3b : Rec :=
  { title := "Zur Elektrodynamik", year := "1905", doi := "",
    bibcode := "", url_hint := "https://archive.org/b" }
/-- Environment for the C3 witness. -/
def envC3w : Env :=
  { net := fun _ _ => .ok 200 "application/pdf" "https://doi.org/fq.pdf",
    clientGet := fun _ => none,
    unpaywallEmail := "",
    unpaywallResp := fun _ => none,
    adsToken := "",
    checks := fun _ _ => allFalseChecks,
    browserOk := fun _ => false,
    renderOk := fun _ => false,
    hashOf := fun _ => "",
    jitter := fun _ _ => 0 }
/-- Environment for the C7 witness: every GET answers 503 and the
jitter is one half. -/
def envC7 : Env :=
  { net := fun _ _ => .ok 503 "text/html" "f",
    clientGet := fun _ => none,
    unpaywallEmail := "",
    unpaywallResp := fun _ => none,
    adsToken := "",
    checks := fun _ _ => allFalseChecks,
    browserOk := fun _ => false,
    renderOk := fun _ => false,
    hashOf := fun _ => "",
    jitter := fun _ _ => 1 / 2 }
/-- Args for the C7 witness: an attempt budget of two. -/
def argsC7 : Args :=
  { out := "o", retries := 2, allow_licensed := false,
    use_browser := false, have_playwright := false }
/-- Environment for the C8 witness: every lookup fails. -/
def envC8 : Env :=
  { net := fun _ _ => .exn "down",
    clientGet := fun _ => none,
    unpaywallEmail := "",
    unpaywallResp := fun _ => none,
    adsToken := "",
    checks := fun _ _ => allFalseChecks,
    browserOk := fun _ => false,
    renderOk := fun _ => false,
    hashOf := fun _ => "",
    jitter := fun _ _ => 0 }
/-- Args for the C8 witness. -/
def argsC8 : Args :=
  { out := "out", retries := 3, allow_licensed := false,
    use_browser := false, have_playwright := false }
/-- Record for the C8 witness: no identifier, no bibcode, no hint. -/
def recC8 : Rec :=
  { title := "Kosmologische Betrachtungen", year := "1917", doi := "",
    bibcode := "", url_hint := "" }
/-- Environment for the C9 witness. -/
def envC9 : Env :=
  { net := fun _ _ => .exn "never reached",
    clientGet := fun _ => none,
    unpaywallEmail := "",
    unpaywallResp := fun _ => none,
    adsToken := "",
    checks := fun _ _ => allFalseChecks,
    browserOk := fun _ => false,
    renderOk := fun _ => false,
    hashOf := fun _ => "",
    jitter := fun _ _ => 0 }
/-- Args for the C9 witness: licensed hosts not allowed. -/
def argsC9 : Args :=
  { out := "out", retries := 3, allow_licensed := false,
    use_browser := false, have_playwright := false }
/-- Record for the C9 witness: its only candidate is a JSTOR URL. -/
def recC9 : Rec :=
  { title := "Die Feldgleichungen", year := "1915", doi := "", bibcode := "",
    url_hint := "https://www.jstor.org/stable/1.pdf" }
/-- The candidate URLs the spec says the Unpaywall step appends: the
best OA location's PDF URL and then every additional listed OA
location's PDF URL, each independently filtered through the host-trust
check.  Stated from the spec's words, for comparison with the program's
`try_unpaywall`. -/
def unpaywall_spec_candidates (data : UnpaywallData) : List String :=
  ((pdfOfLoc (data.best_oa_location.getD { url_for_pdf := none })) ::
    (data.oa_locations.getD []).map pdfOfLoc).filter
    (fun u => decide (u ≠ "" ∧ is_primary_url u = true))
/-- Unpaywall response for the C6 counterexample: the best location and
one additional location, both with whitelisted PDF URLs. -/
def dataC6 : UnpaywallData :=
  { best_oa_location := some { url_for_pdf := some "https://doi.org/a" },
    oa_locations := some [{ url_for_pdf := some "https://archive.org/b" }] }
/-- Environment for the C6 counterexample: the DOI redirect fails, the
Unpaywall lookup answers `dataC6`, the contact email is configured. -/
def envC6 : Env :=
  { net := fun _ _ => .exn "down",
    clientGet := fun _ => none,
    unpaywallEmail := "user@example.org",
    unpaywallResp := fun _ => some (200, dataC6),
    adsToken := "",
    checks := fun _ _ => allFalseChecks,
    browserOk := fun _ => false,
    renderOk := fun _ => false,
    hashOf := fun _ => "",
    jitter := fun _ _ => 0 }
/-- Record for the C6 counterexample: identifier only. -/
def recC6 : Rec :=
  { title := "T", year := "1916", doi := "10.1/x", bibcode := "", url_hint := "" }
end Preserver
namespace Discovery

open Preserver in
/-- One candidate row of `einstein_missing_from_ads.py`; `bibcode` and
`doi` are `Option` because `r.get(...)` may yield `None`. -/
structure Row where
  title : String
  year : String
  bibcode : Option String
  doi : Option String
  url_hint : String
deriving DecidableEq
/-- Computation `(r.get("bibcode") or "").strip()`. -/
def normBib (r : Row) : String := Preserver.strTrim (r.bibcode.getD "")
/-- Computation `(r.get("doi") or "").strip().lower()`. -/
def normDoi (r : Row) : String :=
  Preserver.lowerStr (Preserver.strTrim (r.doi.getD ""))
/-- The loop of `dedupe_rows`, carrying the `seen_bib` and `seen_doi`
sets (sets of strings, modelled by lists with membership). -/
def dedupeAux : List Row → List String → List String → List Row
  | [], _, _ => []
  | r :: rs, sb, sd =>
    let b := normBib r
    let d := normDoi r
    if b ≠ "" ∧ b ∈ sb then dedupeAux rs sb sd
    else if d ≠ "" ∧ d ∈ sd then dedupeAux rs sb sd
    else r :: dedupeAux rs (if b ≠ "" then b :: sb else sb)
      (if d ≠ "" then d :: sd else sd)
/-- Function `dedupe_rows` from `einstein_missing_from_ads.py`. -/
def dedupe_rows (rows : List Row) : List Row := dedupeAux rows [] []
/-- Does row `r` share a non-empty key with some already-kept row? -/
def keptClash (acc : List Row) (r : Row) : Bool :=
  (decide (normBib r ≠ "") && acc.any (fun p => decide (normBib p = normBib r))) ||
  (decide (normDoi r ≠ "") && acc.any (fun p => decide (normDoi p = normDoi r)))
/-- Specification form of the deduplication described by the amended
claim: a row is kept iff no earlier kept row shares its non-empty
bibcode or its non-empty normalized DOI; stated as a left fold over the
kept-rows accumulator, for comparison with `dedupe_rows`. -/
def dedupeSpecAux : List Row → List Row → List Row
  | [], acc => acc
  | r :: rs, acc =>
    if keptClash acc r then dedupeSpecAux rs acc
    else dedupeSpecAux rs (acc ++ [r])
/-- See `dedupeSpecAux`. -/
def dedupeSpec (rows : List Row) : List Row := dedupeSpecAux rows []
/-- Rows whose bibcode and DOI both normalize to empty. -/
def bothEmpty (r : Row) : Bool :=
  decide (normBib r = "") && decide (normDoi r = "")
/-- First counterexample row: empty bibcode, DOI "x". -/
def rowA : Row :=
  { title := "a", year := "", bibcode := some "", doi := some "x", url_hint := "" }
/-- Second counterexample row: bibcode "B", DOI "X " (normalizing to "x"). -/
def rowB : Row :=
  { title := "b", year := "", bibcode := some "B", doi := some "X ", url_hint := "" }
end Discovery
namespace Preserver
/-! ### String lemmas -/
theorem isSubstring_infix_iff {pat l : List Char} :
    isSubstring pat l = true ↔ pat <:+: l := by
  induction l with
  | nil =>
    simp [isSubstring, List.isEmpty_iff]
  | cons c rest ih =>
    simp only [isSubstring, Bool.or_eq_true, List.isPrefixOf_iff_prefix, ih,
      List.infix_cons_iff]
/-! ### Claim C1 -/
theorem hostMatch_append (hosts : List String) (p n : List Char)
    (h : hostMatch hosts n = true) : hostMatch hosts (p ++ n) = true := by
  simp only [hostMatch, hostEntryMatch, List.any_eq_true, Bool.or_eq_true,
    List.isSuffixOf_iff_suffix, isSubstring_infix_iff] at h ⊢
  obtain ⟨e, hmem, hcase⟩ := h
  refine ⟨e, hmem, ?_⟩
  rcases hcase with hs | hi
  · exact Or.inl (hs.trans (List.suffix_append p n))
  · exact Or.inr (hi.trans (List.suffix_append p n).isInfix)
/-- Claim C1 is false as stated: the result of `is_primary_url` is not
unchanged under added subdomains.  The URL `http://org` has netloc
`org` and is rejected, but prefixing the subdomain label `doi.` gives
netloc `doi.org`, which is accepted. -/
theorem C1_counterexample :
    urlparse_netloc "http://org" = some ("org".data) ∧
    urlparse_netloc "http://doi.org" = some ("doi.".data ++ "org".data) ∧
    is_primary_url "http://org" = false ∧
    is_primary_url "http://doi.org" = true ∧
    is_primary_url "http://org" ≠ is_primary_url "http://doi.org" := by
  decide
/-- Claim C1, amended: `is_primary_url u` is true iff `u`'s netloc
parses and matches a whitelist entry by suffix or substring on the
lowercased netloc; a URL whose netloc cannot be parsed yields false;
the result depends only on the lowercased netloc (so it is unchanged
under arbitrary casing); and a true result is preserved (not the result
in general) under prepending subdomain labels to the netloc. -/
theorem C1_is_primary_url_spec :
    (∀ u : String, is_primary_url u = true ↔
      ∃ n, urlparse_netloc u = some n ∧
        ∃ h ∈ PRIMARY_WHITELIST,
          h.data <:+ lowerChars n ∨ h.data <:+: lowerChars n) ∧
    (∀ u : String, urlparse_netloc u = none → is_primary_url u = false) ∧
    (∀ u v : String, ∀ nu nv : List Char,
      urlparse_netloc u = some nu → urlparse_netloc v = some nv →
      lowerChars nu = lowerChars nv → is_primary_url u = is_primary_url v) ∧
    (∀ u v : String, ∀ nu p : List Char,
      urlparse_netloc u = some nu → urlparse_netloc v = some (p ++ nu) →
      is_primary_url u = true → is_primary_url v = true) := by
  refine ⟨?_, ?_, ?_, ?_⟩
  · intro u
    cases h : urlparse_netloc u with
    | none => simp [is_primary_url, h]
    | some n =>
      simp [is_primary_url, h, hostMatch, hostEntryMatch, List.any_eq_true,
        isSubstring_infix_iff]
  · intro u h
    simp [is_primary_url, h]
  · intro u v nu nv hu hv he
    simp [is_primary_url, hu, hv, he]
  · intro u v nu p hu hv htrue
    simp only [is_primary_url, hu] at htrue
    simp only [is_primary_url, hv, lowerChars, List.map_append]
    exact hostMatch_append PRIMARY_WHITELIST _ _ htrue
/-- Concrete instantiation of `C1_is_primary_url_spec`: casing of the
netloc does not change the result, and a whitelisted host stays
whitelisted under an added subdomain. -/
theorem C1_witness :
    is_primary_url "http://DOI.org/x" = is_primary_url "http://doi.ORG/x" ∧
    is_primary_url "https://sub.doi.org/x" = true :=
  ⟨C1_is_primary_url_spec.2.2.1 "http://DOI.org/x" "http://doi.ORG/x"
      "DOI.org".data "doi.ORG".data (by decide) (by decide) (by decide),
   C1_is_primary_url_spec.2.2.2 "https://doi.org/x" "https://sub.doi.org/x"
      "doi.org".data "sub.".data (by decide) (by decide) (by decide)⟩
/-! ### Claims C4 and C5 -/
/-- Claim C4: enabling `accept_scan_only` never turns an accepted
validation into a rejection, and it can flip a rejection into an
acceptance only when the source host matches the trusted-host set, the
extracted prefix text has fewer than 100 characters, and the page count
lies in [2, 80]. -/
theorem C4_scan_only_monotone (pdf : Option PdfInfo) (src : Option String)
    (trusted : List String) (book : Bool) :
    ((validate_pdf pdf src false trusted book).valid_primary = true →
      (validate_pdf pdf src true trusted book).valid_primary = true) ∧
    ((validate_pdf pdf src false trusted book).valid_primary = false →
      (validate_pdf pdf src true trusted book).valid_primary = true →
      ∃ host, hostOfSource src = some host ∧ hostMatch trusted host = true ∧
        (validate_pdf pdf src true trusted book).text_len < 100 ∧
        2 ≤ (validate_pdf pdf src true trusted book).pages ∧
        (validate_pdf pdf src true trusted book).pages ≤ 80) := by
  cases pdf with
  | none => exact ⟨fun h => h, fun _ h1 => nomatch h1⟩
  | some info =>
    cases hh : hostOfSource src with
    | none =>
      have e1 : validate_pdf (some info) src false trusted book = allFalseChecks := by
        simp only [validate_pdf, hh]
      have e2 : validate_pdf (some info) src true trusted book = allFalseChecks := by
        simp only [validate_pdf, hh]
      rw [e1, e2]
      exact ⟨fun h => h, fun _ h1 => nomatch h1⟩
    | some host =>
      simp only [validate_pdf, hh, Bool.false_and, Bool.true_and,
        Bool.false_eq_true, if_false]
      split
      · next hX =>
        rw [Bool.and_eq_true, Bool.and_eq_true, Bool.and_eq_true,
          decide_eq_true_eq, decide_eq_true_eq, decide_eq_true_eq] at hX
        obtain ⟨ht, hlen, hp2, hp80⟩ := hX
        exact ⟨fun _ => rfl, fun _ _ => ⟨host, rfl, ht, hlen, hp2, hp80⟩⟩
      · next hX =>
        exact ⟨fun h => h, fun h0 h1 => absurd h1 (by simp [h0])⟩
/-- Concrete instantiation of `C4_scan_only_monotone`: a baseline
acceptance survives enabling `accept_scan_only`. -/
theorem C4_witness :
    (validate_pdf (some { pages := 13, text := "Einstein" }) none true []
      false).valid_primary = true :=
  (C4_scan_only_monotone (some { pages := 13, text := "Einstein" }) none []
    false).1 (by decide)
/-- Claim C5 is false as stated: a PDF whose prefix text contains the
subject keyword and with 13 pages is nevertheless rejected when the
source URL has a mismatched IPv6 bracket, because `urlparse` raises
inside the validator's `try` block and the all-false result is
returned. -/
theorem C5_counterexample :
    isSubstring "einstein".data (lowerChars ("einstein" : String).data) = true ∧
    1 ≤ 13 ∧ 13 ≤ 200 ∧
    (validate_pdf (some { pages := 13, text := "einstein" })
      (some "http://[x") false [] false).valid_primary = false := by
  decide
/-- Claim C5, amended: provided the source URL is absent, empty, or its
netloc parses, a PDF whose extracted prefix text contains the subject
keyword (case-insensitively) and whose page count lies in [1, 200] is
accepted, for every value of the scan-only flag, the trusted-host set,
the book flag and the venue-keyword content of the text. -/
theorem C5_subject_keyword_accepts (info : PdfInfo) (src : Option String)
    (scan : Bool) (trusted : List String) (book : Bool) (host : List Char)
    (hhost : hostOfSource src = some host)
    (hE : isSubstring "einstein".data (lowerChars info.text.data) = true)
    (h1 : 1 ≤ info.pages) (h2 : info.pages ≤ 200) :
    (validate_pdf (some info) src scan trusted book).valid_primary = true := by
  have hps : ((decide (1 ≤ info.pages) && decide (info.pages ≤ 200)) ||
      (book && decide (info.pages > 50))) = true := by
    simp [h1, h2]
  simp only [validate_pdf, hhost, hE, Bool.true_and, hps]
  split <;> rfl
/-- Concrete instantiation of `C5_subject_keyword_accepts`. -/
theorem C5_witness :
    (validate_pdf (some { pages := 13, text := "EINSTEIN 1905" })
      (some "https://doi.org/x") false [] false).valid_primary = true :=
  C5_subject_keyword_accepts { pages := 13, text := "EINSTEIN 1905" }
    (some "https://doi.org/x") false [] false "doi.org".data
    (by decide) (by decide) (by decide) (by decide)
/-! ### Claims C2 and C3 -/
/-- The hash/acceptance relation one attempt maintains: when the
attempt continues or breaks, the hash field is untouched; when it
returns, either the hash is untouched or the entry was accepted.  Under
the hypothesis that no HTML render succeeds, this covers every branch;
the Gutenberg render branch is the one that needs the hypothesis. -/
theorem attemptOnce_sha_cases (env : Env) (a : Args) (outPdf qDir url : String)
    (attempt : Nat) (s : Status) (hrender : ∀ u, env.renderOk u = false) :
    (match attemptOnce env a outPdf qDir url attempt s with
     | .retry s' _ => s'.sha256 = s.sha256
     | .exit (.next s') _ => s'.sha256 = s.sha256
     | .exit (.done out) _ =>
       out.sha256 = s.sha256 ∨ out.valid_primary = some true) := by
  unfold attemptOnce htmlStep gutenbergTail
  cases hnet : env.net url attempt with
  | exn msg => exact rfl
  | ok st ct fu =>
    dsimp only
    rw [hrender fu]
    simp only [Bool.false_eq_true, if_false]
    split_ifs <;>
      first
        | exact rfl
        | exact Or.inl rfl
        | exact Or.inr (by simp [applyChecks, *])
theorem runAttempts_sha (env : Env) (a : Args) (outPdf qDir url : String)
    (hrender : ∀ u, env.renderOk u = false) :
    ∀ (fuel attempt : Nat) (s : Status),
      (match (runAttempts env a outPdf qDir url fuel attempt s).1 with
       | .next s' => s'.sha256 = s.sha256
       | .done out => out.sha256 = s.sha256 ∨ out.valid_primary = some true) := by
  intro fuel
  induction fuel with
  | zero => intro attempt s; exact rfl
  | succ n ih =>
    intro attempt s
    have h := attemptOnce_sha_cases env a outPdf qDir url attempt s hrender
    cases hA : attemptOnce env a outPdf qDir url attempt s with
    | exit r evs =>
      rw [hA] at h
      simp only [runAttempts, hA]
      cases r with
      | done out => exact h
      | next s' => exact h
    | retry s' evs =>
      rw [hA] at h
      have ih' := ih (attempt + 1) s'
      simp only [runAttempts, hA]
      cases hr : (runAttempts env a outPdf qDir url n (attempt + 1) s').1 with
      | next s2 =>
        rw [hr] at ih'
        exact ih'.trans h
      | done out =>
        rw [hr] at ih'
        rcases ih' with hsha | hv
        · exact Or.inl (hsha.trans h)
        · exact Or.inr hv
theorem fetch_loop_sha (env : Env) (a : Args) (outPdf qDir : String)
    (hrender : ∀ u, env.renderOk u = false) :
    ∀ (urls : List String) (s : Status),
      s.sha256 = none →
      (fetch_loop env a outPdf qDir urls s).1.sha256 ≠ none →
      (fetch_loop env a outPdf qDir urls s).1.valid_primary = some true := by
  intro urls
  induction urls with
  | nil =>
    intro s hs hne
    exact absurd hs hne
  | cons url rest ih =>
    intro s hs hne
    by_cases hsk : licensedSkip a url = true
    · rw [show fetch_loop env a outPdf qDir (url :: rest) s =
          fetch_loop env a outPdf qDir rest s from by
        simp [fetch_loop, hsk]] at hne ⊢
      exact ih s hs hne
    · have hruns := runAttempts_sha env a outPdf qDir url hrender a.retries 0
        { s with chosen_url := some url }
      have hrw : ∀ (r : AttemptOut × List Event),
          runAttempts env a outPdf qDir url a.retries 0
            { s with chosen_url := some url } = r →
          fetch_loop env a outPdf qDir (url :: rest) s =
            (match r with
             | (.done out, evs) => (out, evs)
             | (.next s2, evs) =>
               ((fetch_loop env a outPdf qDir rest s2).1,
                evs ++ (fetch_loop env a outPdf qDir rest s2).2)) := by
        intro r hr
        simp only [fetch_loop]
        rw [if_neg (by simp [hsk]), hr]
      cases hr : runAttempts env a outPdf qDir url a.retries 0
          { s with chosen_url := some url } with
      | mk r evs =>
        cases r with
        | done out =>
          rw [hrw (.done out, evs) hr] at hne ⊢
          rw [hr] at hruns
          rcases hruns with hsha | hv
          · exact absurd (hsha.trans hs) hne
          · exact hv
        | next s2 =>
          rw [hrw (.next s2, evs) hr] at hne ⊢
          rw [hr] at hruns
          exact ih s2 (hruns.trans hs) (by simpa using hne)
theorem attemptOnce_gutenberg (env : Env) (a : Args) (outPdf qDir url : String)
    (attempt : Nat) (s : Status) (st : Nat) (ct fu : String)
    (hnet : env.net url attempt = .ok st ct fu) (hst : st ∉ RETRYABLE)
    (hnotpdf : (strContains (lowerStr ct) "pdf" || guess_pdf fu) = false)
    (hhtml : (strContains (lowerStr ct) "html" || strContains (lowerStr ct) "text/" ||
      decide (lowerStr ct = "")) = true)
    (hnob : a.use_browser = false)
    (hgut : strContains fu "gutenberg.org" = true)
    (hrend : env.renderOk fu = true) :
    attemptOnce env a outPdf qDir url attempt s =
      .exit (.done (applyChecks { s with saved_as := some outPdf,
                                         sha256 := some (env.hashOf fu) }
          (env.checks fu true)))
        [Event.get url attempt, Event.write outPdf] := by
  simp only [attemptOnce, hnet]
  rw [if_neg hst, if_neg (by simp [hnotpdf]), if_pos hhtml]
  simp only [htmlStep, hnob, Bool.false_and, Bool.false_eq_true, if_false]
  simp only [gutenbergTail, hgut, hrend, if_true]
  simp
/-- Claim C2, amended: the content hash is non-null only for accepted
entries on the direct-PDF and browser-assisted paths — formally,
whenever no HTML render succeeds, a non-null hash in the final status
implies acceptance — while on the HTML-render (Gutenberg book) path the
hash and the validation verdict are recorded unconditionally: a
candidate reaching a successful Gutenberg render yields a hash even
when `valid_primary` is false. -/
theorem C2_content_hash :
    (∀ (env : Env) (a : Args) (rec : Rec),
      (∀ u, env.renderOk u = false) →
      (fetch_one env a rec).1.sha256 ≠ none →
      (fetch_one env a rec).1.valid_primary = some true) ∧
    (∀ (env : Env) (a : Args) (outPdf qDir url : String) (rest : List String)
        (s : Status) (st : Nat) (ct fu : String) (m : Nat),
      a.retries = m + 1 → licensedSkip a url = false →
      env.net url 0 = .ok st ct fu → st ∉ RETRYABLE →
      (strContains (lowerStr ct) "pdf" || guess_pdf fu) = false →
      (strContains (lowerStr ct) "html" || strContains (lowerStr ct) "text/" ||
        decide (lowerStr ct = "")) = true →
      a.use_browser = false →
      strContains fu "gutenberg.org" = true → env.renderOk fu = true →
      (fetch_loop env a outPdf qDir (url :: rest) s).1.sha256 =
        some (env.hashOf fu) ∧
      (fetch_loop env a outPdf qDir (url :: rest) s).1.valid_primary =
        some ((env.checks fu true).valid_primary)) := by
  constructor
  · intro env a rec hrender hne
    by_cases h : (resolve_candidates env rec).2.2 = []
    · rw [show fetch_one env a rec =
          ({ initStatus (resolve_candidates env rec).1
              (resolve_candidates env rec).2.1 with
              note := "no_primary_candidate" }, []) from by
        simp only [fetch_one]; rw [if_pos h]] at hne
      exact absurd rfl hne
    · rw [show fetch_one env a rec =
          fetch_loop env a (a.out ++ "/" ++ mkBase (resolve_candidates env rec).1
              (resolve_candidates env rec).2.1 ++ ".pdf")
            (a.out ++ "/quarantine") (resolve_candidates env rec).2.2
            (initStatus (resolve_candidates env rec).1
              (resolve_candidates env rec).2.1) from by
        simp only [fetch_one]; rw [if_neg h]] at hne ⊢
      exact fetch_loop_sha env a _ _ hrender _ _ rfl hne
  · intro env a outPdf qDir url rest s st ct fu m hr hskip hnet hst hnotpdf
      hhtml hnob hgut hrend
    have hA := attemptOnce_gutenberg env a outPdf qDir url 0
      { s with chosen_url := some url } st ct fu hnet hst hnotpdf hhtml hnob
      hgut hrend
    have e : fetch_loop env a outPdf qDir (url :: rest) s =
        (applyChecks { s with chosen_url := some url,
                              saved_as := some outPdf,
                              sha256 := some (env.hashOf fu) }
          (env.checks fu true),
         [Event.get url 0, Event.write outPdf]) := by
      simp only [fetch_loop]
      rw [if_neg (by simp [hskip]), hr]
      simp only [runAttempts, hA]
    rw [e]
    exact ⟨rfl, rfl⟩
/-- Claim C2 is false as stated: on the HTML-render (Gutenberg book)
path the ledger entry records a content hash although validation failed
(`valid_primary = false`, so the entry is not accepted). -/
theorem C2_counterexample :
    (fetch_one envC2 argsC2 recC2).1.sha256 = some "cafebabe" ∧
    (fetch_one envC2 argsC2 recC2).1.valid_primary = some false ∧
    acceptedOf (fetch_one envC2 argsC2 recC2).1 = false := by decide
/-- Concrete instantiation of both parts of `C2_content_hash`. -/
theorem C2_witness :
    (fetch_one envC2b argsC2 recC2b).1.valid_primary = some true ∧
    (fetch_loop envC2 argsC2 "o.pdf" "q" ["u"] (initStatus "t" "")).1.sha256 =
      some (envC2.hashOf "https://www.gutenberg.org/ebooks/1") :=
  ⟨C2_content_hash.1 envC2b argsC2 recC2b (fun _ => rfl) (by decide),
   (C2_content_hash.2 envC2 argsC2 "o.pdf" "q" "u" [] (initStatus "t" "") 200
     "text/html" "https://www.gutenberg.org/ebooks/1" 2 rfl (by decide) rfl
     (by decide) (by decide) (by decide) rfl (by decide) rfl).1⟩
theorem attemptOnce_quarantine (env : Env) (a : Args) (outPdf qDir url : String)
    (attempt : Nat) (s : Status) (st : Nat) (ct fu : String)
    (hnet : env.net url attempt = .ok st ct fu) (hst : st ∉ RETRYABLE)
    (hpdf : (strContains (lowerStr ct) "pdf" || guess_pdf fu) = true)
    (hval : (env.checks fu false).valid_primary = false) :
    attemptOnce env a outPdf qDir url attempt s =
      .exit (.done { applyChecks
          { s with saved_as := some (quarantinePath qDir outPdf) }
          (env.checks fu false) with note := "quarantined_failed_validation" })
        [Event.get url attempt, Event.write outPdf,
         Event.qmove outPdf (quarantinePath qDir outPdf)] := by
  simp only [attemptOnce, hnet]
  rw [if_neg hst, if_pos hpdf, if_neg (by simp [hval])]
/-- Claim C3, amended: a quarantined candidate terminates processing of
the record — the loop does not advance to the remaining candidates; the
quarantined candidate's diagnostics (note "quarantined_failed_validation",
accepted false, its URL as `chosen_url`) form the final ledger entry. -/
theorem C3_quarantine_terminates (env : Env) (a : Args) (outPdf qDir url : String)
    (rest : List String) (s : Status) (st : Nat) (ct fu : String) (m : Nat)
    (hr : a.retries = m + 1) (hskip : licensedSkip a url = false)
    (hnet : env.net url 0 = .ok st ct fu) (hst : st ∉ RETRYABLE)
    (hpdf : (strContains (lowerStr ct) "pdf" || guess_pdf fu) = true)
    (hval : (env.checks fu false).valid_primary = false) :
    fetch_loop env a outPdf qDir (url :: rest) s =
      fetch_loop env a outPdf qDir [url] s ∧
    (fetch_loop env a outPdf qDir [url] s).1.note =
      "quarantined_failed_validation" ∧
    (fetch_loop env a outPdf qDir [url] s).1.valid_primary = some false ∧
    (fetch_loop env a outPdf qDir [url] s).1.chosen_url = some url := by
  have hA := attemptOnce_quarantine env a outPdf qDir url 0
    { s with chosen_url := some url } st ct fu hnet hst hpdf hval
  have hfl : ∀ (tail : List String),
      fetch_loop env a outPdf qDir (url :: tail) s =
        ({ applyChecks { s with chosen_url := some url,
                                saved_as := some (quarantinePath qDir outPdf) }
            (env.checks fu false) with
           note := "quarantined_failed_validation" },
         [Event.get url 0, Event.write outPdf,
          Event.qmove outPdf (quarantinePath qDir outPdf)]) := by
    intro tail
    simp only [fetch_loop]
    rw [if_neg (by simp [hskip]), hr]
    simp only [runAttempts, hA]
  refine ⟨(hfl rest).trans (hfl []).symm, ?_, ?_, ?_⟩
  · rw [hfl []]
  · rw [hfl []]
    show some (env.checks fu false).valid_primary = some false
    rw [hval]
  · rw [hfl []]
    rfl
/-- Claim C3 is false as stated: after the first candidate is
quarantined, `fetch_one` returns — the second candidate is never
fetched (no GET event for it), although fetching the record with only
that second candidate yields an accepted entry. -/
theorem C3_counterexample :
    (fetch_one envC3 argsC3 recC3).1.note = "quarantined_failed_validation" ∧
    (fetch_one envC3 argsC3 recC3).1.chosen_url =
      some "https://ui.adsabs.harvard.edu/link_gateway/1905AnP.891E/PUB_PDF" ∧
    acceptedOf (fetch_one envC3 argsC3 recC3).1 = false ∧
    Event.get "https://archive.org/b" 0 ∉ (fetch_one envC3 argsC3 recC3).2 ∧
    (fetch_one envC3 argsC3 recC3b).1.valid_primary = some true := by decide
/-- Concrete instantiation of `C3_quarantine_terminates`. -/
theorem C3_witness :
    fetch_loop envC3w argsC3 "o.pdf" "q" ["u1", "u2"] (initStatus "t" "") =
      fetch_loop envC3w argsC3 "o.pdf" "q" ["u1"] (initStatus "t" "") ∧
    (fetch_loop envC3w argsC3 "o.pdf" "q" ["u1"] (initStatus "t" "")).1.note =
      "quarantined_failed_validation" ∧
    (fetch_loop envC3w argsC3 "o.pdf" "q" ["u1"]
      (initStatus "t" "")).1.valid_primary = some false ∧
    (fetch_loop envC3w argsC3 "o.pdf" "q" ["u1"]
      (initStatus "t" "")).1.chosen_url = some "u1" :=
  C3_quarantine_terminates envC3w argsC3 "o.pdf" "q" "u1" ["u2"]
    (initStatus "t" "") 200 "application/pdf" "https://doi.org/fq.pdf" 2
    rfl (by decide) rfl (by decide) (by decide) rfl
/-! ### Claim C7 -/
theorem attemptOnce_retryable (env : Env) (a : Args) (outPdf qDir url : String)
    (attempt : Nat) (s : Status) (st : Nat) (ct fu : String)
    (hnet : env.net url attempt = .ok st ct fu) (hst : st ∈ RETRYABLE) :
    attemptOnce env a outPdf qDir url attempt s =
      .retry s [Event.get url attempt,
        Event.sleep (backoff_sleep env url attempt)] := by
  simp only [attemptOnce, hnet]
  rw [if_pos hst]
theorem runAttempts_retry_all (env : Env) (a : Args) (outPdf qDir url : String) :
    ∀ (fuel attempt : Nat) (s : Status),
      (∀ k, attempt ≤ k → k < attempt + fuel →
        ∃ st ct fu, env.net url k = .ok st ct fu ∧ st ∈ RETRYABLE) →
      runAttempts env a outPdf qDir url fuel attempt s =
        (.next s, (List.range' attempt fuel).flatMap
          (fun k => [Event.get url k, Event.sleep (backoff_sleep env url k)])) := by
  intro fuel
  induction fuel with
  | zero => intro attempt s _; simp [runAttempts]
  | succ n ih =>
    intro attempt s h
    obtain ⟨st, ct, fu, hnet, hst⟩ := h attempt (Nat.le_refl _) (by omega)
    rw [show runAttempts env a outPdf qDir url (n + 1) attempt s =
        ((runAttempts env a outPdf qDir url n (attempt + 1) s).1,
         [Event.get url attempt, Event.sleep (backoff_sleep env url attempt)] ++
           (runAttempts env a outPdf qDir url n (attempt + 1) s).2) from by
      simp [runAttempts,
        attemptOnce_retryable env a outPdf qDir url attempt s st ct fu hnet hst]]
    rw [ih (attempt + 1) s (fun k hk1 hk2 => h k (by omega) (by omega))]
    rw [List.range'_succ]
    simp
/-- Claim C7: when every response for a URL has a retryable status
(429, 403, 500, 502, 503, 504), the fetcher performs exactly
`a.retries` GETs of that same URL at attempt indices 0, 1, …, each
followed by a sleep of `min(60, 2^attempt)` seconds plus the drawn
jitter (which, when the jitter oracle respects `uniform(0,1)`, lies in
`[0,1)`, bounding the sleep by `[min(60,2^k), min(60,2^k)+1)`), and
then gives up on that URL only: the loop proceeds with the remaining
candidates of the record, carrying the status along. -/
theorem C7_backoff_retry (env : Env) (a : Args) (outPdf qDir url : String)
    (rest : List String) (s : Status)
    (hskip : licensedSkip a url = false)
    (hretry : ∀ k, k < a.retries →
      ∃ st ct fu, env.net url k = .ok st ct fu ∧ st ∈ RETRYABLE)
    (hjit : ∀ k, 0 ≤ env.jitter url k ∧ env.jitter url k < 1) :
    (runAttempts env a outPdf qDir url a.retries 0
        { s with chosen_url := some url } =
      (.next { s with chosen_url := some url }, retryTrace env url a.retries)) ∧
    (fetch_loop env a outPdf qDir (url :: rest) s =
      ((fetch_loop env a outPdf qDir rest { s with chosen_url := some url }).1,
       retryTrace env url a.retries ++
         (fetch_loop env a outPdf qDir rest { s with chosen_url := some url }).2)) ∧
    (∀ k, k < a.retries →
      Event.get url k ∈ retryTrace env url a.retries ∧
      Event.sleep (backoff_sleep env url k) ∈ retryTrace env url a.retries ∧
      ((min 60 (2 ^ k) : ℕ) : ℚ) ≤ backoff_sleep env url k ∧
      backoff_sleep env url k < ((min 60 (2 ^ k) : ℕ) : ℚ) + 1) ∧
    (∀ (u' : String) (k' : Nat),
      Event.get u' k' ∈ retryTrace env url a.retries →
      u' = url ∧ k' < a.retries) := by
  have hrun : runAttempts env a outPdf qDir url a.retries 0
      { s with chosen_url := some url } =
      (.next { s with chosen_url := some url }, retryTrace env url a.retries) := by
    rw [retryTrace, List.range_eq_range']
    exact runAttempts_retry_all env a outPdf qDir url a.retries 0 _
      (fun k hk1 hk2 => hretry k (by omega))
  refine ⟨hrun, ?_, ?_, ?_⟩
  · simp only [fetch_loop]
    rw [if_neg (by simp [hskip]), hrun]
  · intro k hk
    refine ⟨?_, ?_, ?_, ?_⟩
    · rw [retryTrace]
      exact List.mem_flatMap.mpr ⟨k, List.mem_range.mpr hk, by simp⟩
    · rw [retryTrace]
      exact List.mem_flatMap.mpr ⟨k, List.mem_range.mpr hk, by simp⟩
    · have := (hjit k).1
      simp only [backoff_sleep]
      linarith
    · have := (hjit k).2
      simp only [backoff_sleep]
      linarith
  · intro u' k' hmem
    rw [retryTrace] at hmem
    obtain ⟨k, hk, hin⟩ := List.mem_flatMap.mp hmem
    simp only [List.mem_cons, List.mem_singleton] at hin
    rcases hin with h | h | h
    · obtain ⟨h1, h2⟩ := Event.get.inj h
      exact ⟨h1, h2 ▸ List.mem_range.mp hk⟩
    · exact absurd h (by simp)
    · exact absurd h (by simp)
/-- Concrete instantiation of `C7_backoff_retry`. -/
theorem C7_witness :
    runAttempts envC7 argsC7 "o/x.pdf" "o/quarantine" "https://doi.org/w" 2 0
        { initStatus "t" "" with chosen_url := some "https://doi.org/w" } =
      (.next { initStatus "t" "" with chosen_url := some "https://doi.org/w" },
       retryTrace envC7 "https://doi.org/w" 2) :=
  (C7_backoff_retry envC7 argsC7 "o/x.pdf" "o/quarantine" "https://doi.org/w"
    [] (initStatus "t" "") (by decide)
    (fun k _ => ⟨503, "text/html", "f", rfl, by decide⟩)
    (fun k => ⟨by norm_num [envC7], by norm_num [envC7]⟩)).1
/-! ### Claims C8 and C9 -/
/-- Claim C8: a record whose resolution yields no whitelisted candidate
URL produces a ledger entry with note "no_primary_candidate", accepted
false, null chosen URL, saved path and content hash, and an empty event
trace (no file is touched); moreover resolution is empty whenever the
record has no identifier, no secondary identifier, and a hint that is
empty or not whitelisted. -/
theorem C8_no_candidate (env : Env) (a : Args) (rec : Rec) :
    ((resolve_candidates env rec).2.2 = [] →
      fetch_one env a rec =
        ({ initStatus (resolve_candidates env rec).1
            (resolve_candidates env rec).2.1 with
            note := "no_primary_candidate" }, []) ∧
      acceptedOf (fetch_one env a rec).1 = false ∧
      (fetch_one env a rec).1.chosen_url = none ∧
      (fetch_one env a rec).1.saved_as = none ∧
      (fetch_one env a rec).1.sha256 = none ∧
      (fetch_one env a rec).2 = []) ∧
    (strTrim rec.doi = "" → strTrim rec.bibcode = "" →
      (strTrim rec.url_hint = "" ∨
        is_primary_url (strTrim rec.url_hint) = false) →
      (resolve_candidates env rec).2.2 = []) := by
  constructor
  · intro h
    have e : fetch_one env a rec =
        ({ initStatus (resolve_candidates env rec).1
            (resolve_candidates env rec).2.1 with
            note := "no_primary_candidate" }, []) := by
      simp only [fetch_one]
      rw [if_pos h]
    refine ⟨e, ?_, ?_, ?_, ?_, ?_⟩ <;> rw [e] <;> rfl
  · intro hdoi hbib hhint
    rcases hhint with hU | hP
    · simp [resolve_candidates, hdoi, hbib, hU]
    · by_cases hU2 : strTrim rec.url_hint = ""
      · simp [resolve_candidates, hdoi, hbib, hU2]
      · simp [resolve_candidates, hdoi, hbib, hU2, hP]
/-- Concrete instantiation of `C8_no_candidate`. -/
theorem C8_witness :
    (resolve_candidates envC8 recC8).2.2 = [] ∧
    acceptedOf (fetch_one envC8 argsC8 recC8).1 = false ∧
    (fetch_one envC8 argsC8 recC8).1.note = "no_primary_candidate" ∧
    (fetch_one envC8 argsC8 recC8).2 = [] :=
  have hres : (resolve_candidates envC8 recC8).2.2 = [] :=
    (C8_no_candidate envC8 argsC8 recC8).2 (by decide) (by decide)
      (Or.inl (by decide))
  ⟨hres, ((C8_no_candidate envC8 argsC8 recC8).1 hres).2.1,
    by rw [((C8_no_candidate envC8 argsC8 recC8).1 hres).1],
    ((C8_no_candidate envC8 argsC8 recC8).1 hres).2.2.2.2.2⟩
theorem fetch_loop_all_licensed (env : Env) (a : Args) (outPdf qDir : String)
    (hlic : a.allow_licensed = false) :
    ∀ (urls : List String) (s : Status),
      (∀ u ∈ urls, strContains u "jstor.org" = true ∨
        strContains u "springer" = true) →
      fetch_loop env a outPdf qDir urls s = (s, []) := by
  intro urls
  induction urls with
  | nil => intro s _; rfl
  | cons u rest ih =>
    intro s hall
    have hsk : licensedSkip a u = true := by
      rcases hall u (List.mem_cons_self u rest) with h | h <;>
        simp [licensedSkip, h, hlic]
    rw [show fetch_loop env a outPdf qDir (u :: rest) s =
        fetch_loop env a outPdf qDir rest s from by
      simp [fetch_loop, hsk]]
    exact ih s (fun v hv => hall v (List.mem_cons_of_mem _ hv))
/-- Claim C9: with the licensed toggle off, a candidate whose URL string
contains "jstor.org" or "springer" is skipped by the per-record loop
without any network attempt and without setting `chosen_url` (the loop
behaves as if the candidate were absent); consequently a record all of
whose candidates are licensed ends with the initial status unchanged:
accepted false, null chosen URL and saved path, and an empty note (not
"no_primary_candidate"), with an empty event trace. -/
theorem C9_licensed_skip (env : Env) (a : Args) :
    (∀ (outPdf qDir url : String) (rest : List String) (s : Status),
      (strContains url "jstor.org" = true ∨ strContains url "springer" = true) →
      a.allow_licensed = false →
      fetch_loop env a outPdf qDir (url :: rest) s =
        fetch_loop env a outPdf qDir rest s) ∧
    (∀ rec : Rec, a.allow_licensed = false →
      (resolve_candidates env rec).2.2 ≠ [] →
      (∀ u ∈ (resolve_candidates env rec).2.2,
        strContains u "jstor.org" = true ∨ strContains u "springer" = true) →
      fetch_one env a rec =
        (initStatus (resolve_candidates env rec).1
          (resolve_candidates env rec).2.1, []) ∧
      acceptedOf (fetch_one env a rec).1 = false ∧
      (fetch_one env a rec).1.note = "" ∧
      (fetch_one env a rec).1.chosen_url = none) := by
  constructor
  · intro outPdf qDir url rest s hl hlic
    have hsk : licensedSkip a url = true := by
      rcases hl with h | h <;> simp [licensedSkip, h, hlic]
    simp [fetch_loop, hsk]
  · intro rec hlic hne hall
    have e : fetch_one env a rec =
        (initStatus (resolve_candidates env rec).1
          (resolve_candidates env rec).2.1, []) := by
      simp only [fetch_one]
      rw [if_neg hne]
      exact fetch_loop_all_licensed env a _ _ hlic _ _ hall
    exact ⟨e, by rw [e]; rfl, by rw [e]; rfl, by rw [e]; rfl⟩
/-- Concrete instantiation of `C9_licensed_skip`. -/
theorem C9_witness :
    acceptedOf (fetch_one envC9 argsC9 recC9).1 = false ∧
    (fetch_one envC9 argsC9 recC9).1.note = "" ∧
    (fetch_one envC9 argsC9 recC9).1.chosen_url = none :=
  have h := (C9_licensed_skip envC9 argsC9).2 recC9 rfl (by decide) (by decide)
  ⟨h.2.1, h.2.2.1, h.2.2.2⟩
/-! ### Claim C6 -/
theorem firstPrimaryLoc_eq_find (locs : List OALoc) :
    firstPrimaryLoc locs = (locs.map pdfOfLoc).find?
      (fun u => decide (u ≠ "" ∧ is_primary_url u = true)) := by
  induction locs with
  | nil => rfl
  | cons L rest ih =>
    simp only [firstPrimaryLoc, List.map_cons]
    by_cases h : pdfOfLoc L ≠ "" ∧ is_primary_url (pdfOfLoc L) = true
    · rw [if_pos h, List.find?_cons_of_pos _ (by simpa using h)]
    · rw [if_neg h, List.find?_cons_of_neg _ (by simpa using h), ih]
/-- Claim C6 is false as stated: with an identifier and a configured
contact email, resolution appends only the best OA location's PDF URL;
the additional listed OA location's whitelisted PDF URL is not
appended, so the candidate list differs from the spec-described one. -/
theorem C6_counterexample :
    (resolve_candidates envC6 recC6).2.2 = ["https://doi.org/a"] ∧
    unpaywall_spec_candidates dataC6 =
      ["https://doi.org/a", "https://archive.org/b"] ∧
    ¬ ((resolve_candidates envC6 recC6).2.2 = unpaywall_spec_candidates dataC6) := by
  decide
/-- Claim C6, amended: when a record has an identifier and the contact
email is configured and the lookup answers with status below 400,
`try_unpaywall` returns (and resolution therefore appends) at most one
URL — the first entry of best-location-then-listed-locations whose PDF
URL is non-empty and whitelisted. -/
theorem C6_try_unpaywall_first_only (env : Env) (doi : String) (st : Nat)
    (data : UnpaywallData)
    (hemail : strTrim env.unpaywallEmail ≠ "") (hdoi : doi ≠ "")
    (hresp : env.unpaywallResp doi = some (st, data)) (hst : st < 400) :
    try_unpaywall env doi =
      ((pdfOfLoc (data.best_oa_location.getD { url_for_pdf := none })) ::
        (data.oa_locations.getD []).map pdfOfLoc).find?
        (fun u => decide (u ≠ "" ∧ is_primary_url u = true)) ∧
    (try_unpaywall env doi).toList.length ≤ 1 := by
  have hcond : ¬ (strTrim env.unpaywallEmail = "" ∨ doi = "") := by
    push_neg
    exact ⟨hemail, hdoi⟩
  have h1 : try_unpaywall env doi =
      (if pdfOfLoc (data.best_oa_location.getD { url_for_pdf := none }) ≠ "" ∧
          is_primary_url (pdfOfLoc (data.best_oa_location.getD { url_for_pdf := none })) = true
        then some (pdfOfLoc (data.best_oa_location.getD { url_for_pdf := none }))
        else firstPrimaryLoc (data.oa_locations.getD [])) := by
    simp only [try_unpaywall, hresp]
    rw [if_neg hcond, if_neg (show ¬ 400 ≤ st by omega)]
  constructor
  · rw [h1]
    by_cases h : pdfOfLoc (data.best_oa_location.getD { url_for_pdf := none }) ≠ "" ∧
        is_primary_url (pdfOfLoc (data.best_oa_location.getD { url_for_pdf := none })) = true
    · rw [if_pos h, List.find?_cons_of_pos _ (by simpa using h)]
    · rw [if_neg h, List.find?_cons_of_neg _ (by simpa using h),
        firstPrimaryLoc_eq_find]
  · cases try_unpaywall env doi <;> simp
/-- Concrete instantiation of `C6_try_unpaywall_first_only` at the C6
environment. -/
theorem C6_witness :
    try_unpaywall envC6 "10.1/x" =
      ((pdfOfLoc (dataC6.best_oa_location.getD { url_for_pdf := none })) ::
        (dataC6.oa_locations.getD []).map pdfOfLoc).find?
        (fun u => decide (u ≠ "" ∧ is_primary_url u = true)) ∧
    (try_unpaywall envC6 "10.1/x").toList.length ≤ 1 :=
  C6_try_unpaywall_first_only envC6 "10.1/x" 200 dataC6
    (by decide) (by decide) rfl (by decide)
end Preserver
namespace Discovery
/-! ### Claim C10 -/
theorem dedupeAux_sublist : ∀ (rows : List Row) (sb sd : List String),
    List.Sublist (dedupeAux rows sb sd) rows := by
  intro rows
  induction rows with
  | nil => intro sb sd; simp [dedupeAux]
  | cons r rs ih =>
    intro sb sd
    simp only [dedupeAux]
    split
    · exact (ih _ _).cons r
    · split
      · exact (ih _ _).cons r
      · exact (ih _ _).cons₂ r
theorem dedupeAux_idem : ∀ (rows : List Row) (sb sd : List String),
    dedupeAux (dedupeAux rows sb sd) sb sd = dedupeAux rows sb sd := by
  intro rows
  induction rows with
  | nil => intro sb sd; rfl
  | cons r rs ih =>
    intro sb sd
    by_cases hb : normBib r ≠ "" ∧ normBib r ∈ sb
    · rw [show dedupeAux (r :: rs) sb sd = dedupeAux rs sb sd from by
        simp [dedupeAux, hb]]
      exact ih sb sd
    · by_cases hd : normDoi r ≠ "" ∧ normDoi r ∈ sd
      · rw [show dedupeAux (r :: rs) sb sd = dedupeAux rs sb sd from by
          simp [dedupeAux, hb, hd]]
        exact ih sb sd
      · rw [show dedupeAux (r :: rs) sb sd =
            r :: dedupeAux rs (if normBib r ≠ "" then normBib r :: sb else sb)
              (if normDoi r ≠ "" then normDoi r :: sd else sd) from by
          simp [dedupeAux, hb, hd]]
        rw [show dedupeAux
            (r :: dedupeAux rs (if normBib r ≠ "" then normBib r :: sb else sb)
              (if normDoi r ≠ "" then normDoi r :: sd else sd)) sb sd =
            r :: dedupeAux
              (dedupeAux rs (if normBib r ≠ "" then normBib r :: sb else sb)
                (if normDoi r ≠ "" then normDoi r :: sd else sd))
              (if normBib r ≠ "" then normBib r :: sb else sb)
              (if normDoi r ≠ "" then normDoi r :: sd else sd) from by
          simp [dedupeAux, hb, hd]]
        rw [ih _ _]
theorem seen_insert (key : Row → String) (acc : List Row) (r : Row)
    (sb : List String)
    (h : ∀ x, x ∈ sb ↔ x ≠ "" ∧ ∃ p ∈ acc, key p = x) :
    ∀ x, x ∈ (if key r ≠ "" then key r :: sb else sb) ↔
      x ≠ "" ∧ ∃ p ∈ acc ++ [r], key p = x := by
  intro x
  constructor
  · intro hx
    by_cases hr : key r ≠ ""
    · rw [if_pos hr] at hx
      rcases List.mem_cons.mp hx with rfl | hx'
      · exact ⟨hr, r, List.mem_append.mpr (Or.inr (List.mem_singleton.mpr rfl)), rfl⟩
      · obtain ⟨hne, p, hp, hk⟩ := (h x).mp hx'
        exact ⟨hne, p, List.mem_append.mpr (Or.inl hp), hk⟩
    · rw [if_neg hr] at hx
      obtain ⟨hne, p, hp, hk⟩ := (h x).mp hx
      exact ⟨hne, p, List.mem_append.mpr (Or.inl hp), hk⟩
  · rintro ⟨hne, p, hp, hk⟩
    rcases List.mem_append.mp hp with hp' | hp'
    · have hx : x ∈ sb := (h x).mpr ⟨hne, p, hp', hk⟩
      by_cases hr : key r ≠ ""
      · rw [if_pos hr]; exact List.mem_cons_of_mem _ hx
      · rw [if_neg hr]; exact hx
    · have hpr : p = r := List.mem_singleton.mp hp'
      subst hpr
      rw [hk, if_pos hne]
      exact List.mem_cons_self _ _
theorem dedupeSpecAux_eq : ∀ (rows acc : List Row) (sb sd : List String),
    (∀ x, x ∈ sb ↔ x ≠ "" ∧ ∃ p ∈ acc, normBib p = x) →
    (∀ x, x ∈ sd ↔ x ≠ "" ∧ ∃ p ∈ acc, normDoi p = x) →
    dedupeSpecAux rows acc = acc ++ dedupeAux rows sb sd := by
  intro rows
  induction rows with
  | nil => intro acc sb sd _ _; simp [dedupeSpecAux, dedupeAux]
  | cons r rs ih =>
    intro acc sb sd hb hd
    have hclash : keptClash acc r = true ↔
        (normBib r ≠ "" ∧ normBib r ∈ sb) ∨
        (normDoi r ≠ "" ∧ normDoi r ∈ sd) := by
      simp only [keptClash, Bool.or_eq_true, Bool.and_eq_true,
        decide_eq_true_eq, List.any_eq_true]
      constructor
      · rintro (⟨hne, p, hp, hk⟩ | ⟨hne, p, hp, hk⟩)
        · exact Or.inl ⟨hne, (hb _).mpr ⟨hne, p, hp, hk⟩⟩
        · exact Or.inr ⟨hne, (hd _).mpr ⟨hne, p, hp, hk⟩⟩
      · rintro (⟨hne, hmem⟩ | ⟨hne, hmem⟩)
        · obtain ⟨-, p, hp, hk⟩ := (hb _).mp hmem
          exact Or.inl ⟨hne, p, hp, hk⟩
        · obtain ⟨-, p, hp, hk⟩ := (hd _).mp hmem
          exact Or.inr ⟨hne, p, hp, hk⟩
    by_cases hbm : normBib r ≠ "" ∧ normBib r ∈ sb
    · rw [show dedupeSpecAux (r :: rs) acc = dedupeSpecAux rs acc from by
        simp [dedupeSpecAux, hclash.mpr (Or.inl hbm)]]
      rw [show dedupeAux (r :: rs) sb sd = dedupeAux rs sb sd from by
        simp [dedupeAux, hbm]]
      exact ih acc sb sd hb hd
    · by_cases hdm : normDoi r ≠ "" ∧ normDoi r ∈ sd
      · rw [show dedupeSpecAux (r :: rs) acc = dedupeSpecAux rs acc from by
          simp [dedupeSpecAux, hclash.mpr (Or.inr hdm)]]
        rw [show dedupeAux (r :: rs) sb sd = dedupeAux rs sb sd from by
          simp [dedupeAux, hbm, hdm]]
        exact ih acc sb sd hb hd
      · have hkc : keptClash acc r = false := by
          cases h : keptClash acc r
          · rfl
          · exact absurd (hclash.mp h) (by tauto)
        rw [show dedupeSpecAux (r :: rs) acc = dedupeSpecAux rs (acc ++ [r]) from by
          simp [dedupeSpecAux, hkc]]
        rw [show dedupeAux (r :: rs) sb sd =
            r :: dedupeAux rs (if normBib r ≠ "" then normBib r :: sb else sb)
              (if normDoi r ≠ "" then normDoi r :: sd else sd) from by
          simp [dedupeAux, hbm, hdm]]
        rw [ih (acc ++ [r]) _ _ (seen_insert normBib acc r sb hb)
          (seen_insert normDoi acc r sd hd)]
        simp
theorem dedupeAux_countP : ∀ (rows : List Row) (sb sd : List String),
    (dedupeAux rows sb sd).countP bothEmpty = rows.countP bothEmpty := by
  intro rows
  induction rows with
  | nil => intro sb sd; rfl
  | cons r rs ih =>
    intro sb sd
    by_cases hb : normBib r ≠ "" ∧ normBib r ∈ sb
    · rw [show dedupeAux (r :: rs) sb sd = dedupeAux rs sb sd from by
        simp [dedupeAux, hb]]
      rw [ih, List.countP_cons_of_neg]
      simp [bothEmpty, hb.1]
    · by_cases hd : normDoi r ≠ "" ∧ normDoi r ∈ sd
      · rw [show dedupeAux (r :: rs) sb sd = dedupeAux rs sb sd from by
          simp [dedupeAux, hb, hd]]
        rw [ih, List.countP_cons_of_neg]
        simp [bothEmpty, hd.1]
      · rw [show dedupeAux (r :: rs) sb sd =
            r :: dedupeAux rs (if normBib r ≠ "" then normBib r :: sb else sb)
              (if normDoi r ≠ "" then normDoi r :: sd else sd) from by
          simp [dedupeAux, hb, hd]]
        rw [List.countP_cons, List.countP_cons, ih]
/-- Claim C10 is false as stated: `rowB` is the first (and only) row
carrying the non-empty bibcode "B", yet it is dropped, because its DOI
normalizes to the DOI of the earlier kept `rowA`.  So `dedupe_rows` does
not keep the first row for each distinct non-empty bibcode. -/
theorem C10_counterexample :
    dedupe_rows [rowA, rowB] = [rowA] ∧
    normBib rowB = "B" ∧ normBib rowA = "" ∧
    normDoi rowA = normDoi rowB ∧
    rowB ∉ dedupe_rows [rowA, rowB] := by decide
/-- Claim C10, amended: `dedupe_rows` preserves the input order of the
rows it keeps (it is a sublist of the input), keeps a row iff no
earlier kept row shares its non-empty bibcode or its non-empty DOI (the
DOI compared case-insensitively after trimming) — equivalently it
equals the kept-rows fold `dedupeSpec` — always keeps rows whose
bibcode and DOI are both empty, and is idempotent. -/
theorem C10_dedupe_rows_spec :
    (∀ rows : List Row, List.Sublist (dedupe_rows rows) rows) ∧
    (∀ rows : List Row, dedupe_rows rows = dedupeSpec rows) ∧
    (∀ rows : List Row,
      (dedupe_rows rows).countP bothEmpty = rows.countP bothEmpty) ∧
    (∀ rows : List Row, dedupe_rows (dedupe_rows rows) = dedupe_rows rows) := by
  refine ⟨fun rows => dedupeAux_sublist rows [] [],
    fun rows => ?_,
    fun rows => dedupeAux_countP rows [] [],
    fun rows => dedupeAux_idem rows [] []⟩
  rw [dedupe_rows, dedupeSpec,
    dedupeSpecAux_eq rows [] [] [] (by simp) (by simp)]
  simp
end Discovery
